import Mathlib

/-!
Verification of the SQL-condition-extraction and client-side query-execution
core of the repository, as a shallow embedding in Lean.

Embedded source files:
* src/mindsdb/integrations/handlers/milvus_handler/milvus_handler.py
* src/mindsdb/integrations/handlers/youtube_handler/youtube_tables.py
* src/mindsdb/integrations/handlers/cryptopanic_handler/cryptopanic_tables.py

Python dictionaries become structures or association lists, Python exceptions
become Except, and the remote SDK boundary (pymilvus collection calls, the
youtube and cryptopanic HTTP calls, the fetched frames) is a parameter of each
embedded operation.
-/

namespace MindsDB

/-! ## Common value model -/

/-- Literal values carried by filter conditions: Python ints, strings, and
numeric lists standing in for search vectors (no claim inspects the numeric
contents of a vector, so the float components are modelled as integers). -/
inductive Value where
  | int (i : Int)
  | str (s : String)
  | vec (v : List Int)
deriving DecidableEq, Repr

/-- Python str() of a value, as the f-string in the Milvus translation
renders it: ints print bare, strings print without quotes. -/
def Value.render : Value → String
  | .int i => toString i
  | .str s => s
  | .vec v => toString v

/-- Python str.startswith, implemented on the character list (so that
proofs can evaluate it). -/
def pyStartsWith (s pre : String) : Bool :=
  pre.data.isPrefixOf s.data

/-- Worker of pySplitDot: split the remaining characters at every dot,
carrying the current component reversed. -/
def splitDotAux : List Char → List Char → List String
  | [], cur => [String.mk cur.reverse]
  | c :: cs, cur =>
    if c = '.' then String.mk cur.reverse :: splitDotAux cs []
    else splitDotAux cs (c :: cur)

/-- Python str.split of one dot separator, implemented on the character
list; always returns a non-empty list, whose last element is the suffix
after the last dot (the whole string when no dot occurs). -/
def pySplitDot (s : String) : List String :=
  splitDotAux s.data []

/-! ## Milvus handler embedding
(src/mindsdb/integrations/handlers/milvus_handler/milvus_handler.py) -/

/-- Modelled from the spec: the operator enumeration of the Condition data
model (spec section 3) — the Python enum FilterOperator lives in
mindsdb.integrations.libs.vectordatabase_handler, which is not under src.
The spec declares exactly these ten operators. -/
inductive FilterOperator where
  | EQUAL
  | NOT_EQUAL
  | LESS_THAN
  | LESS_THAN_OR_EQUAL
  | GREATER_THAN
  | GREATER_THAN_OR_EQUAL
  | IN
  | NOT_IN
  | LIKE
  | NOT_LIKE
deriving DecidableEq, Repr

/-- A FilterCondition as used by the Milvus handler: a column (dotted path),
an operator and a literal value. -/
structure FilterCondition where
  column : String
  op : FilterOperator
  value : Value
deriving DecidableEq, Repr

/-- Modelled from the spec: reserved field names of the vector-store data
model (the Python enum TableField in
mindsdb.integrations.libs.vectordatabase_handler, not under src): the
metadata namespace prefix of spec section 4.2, the reserved similarity-search
column, and the declared schema columns. -/
def metadataField : String := "metadata"

/-- Modelled from the spec: the single reserved column name denoting
vector/embedding similarity search (spec section 4.2). -/
def searchVectorField : String := "search_vector"

/-- Modelled from the spec: the id column of the declared vector-store
schema. -/
def idField : String := "id"

/-- Modelled from the spec: the content column of the declared vector-store
schema. -/
def contentField : String := "content"

/-- Modelled from the spec: the embeddings column of the declared
vector-store schema. -/
def embeddingsField : String := "embeddings"

/-- Modelled from the spec: the distance column of the declared vector-store
schema. -/
def distanceField : String := "distance"

/-- Modelled from the spec: the field names of the declared schema
(VectorStoreHandler.SCHEMA, not under src) that fill output_fields when the
caller passes no columns (spec sections 3 and 4.5: a fixed, declared column
schema). -/
def vectorStoreSchemaNames : List String :=
  [idField, contentField, embeddingsField, metadataField, distanceField]

/-- Python-level failures that escape the handler uncaught (they are not
turned into HandlerResponse error objects by the handler code). -/
inductive PyErr where
  | attributeError (attr : String)
  | keyError (key : String)
deriving DecidableEq, Repr

/-- MilvusHandler._get_milvus_operator (lines 111-126): the explicit
enumerated operator table. Every one of the ten declared operators has an
entry, so the raise branch for an operator missing from the mapping is
unreachable over this operator enumeration and the function is total. -/
def get_milvus_operator : FilterOperator → String
  | .EQUAL => "=="
  | .NOT_EQUAL => "!="
  | .LESS_THAN => "<"
  | .LESS_THAN_OR_EQUAL => "<="
  | .GREATER_THAN => ">"
  | .GREATER_THAN_OR_EQUAL => ">="
  | .IN => "in"
  | .NOT_IN => "not in"
  | .LIKE => "like"
  | .NOT_LIKE => "not like"

/-- The attribute names class MilvusHandler itself defines
(milvus_handler.py, under src). -/
def milvusHandlerMethods : List String :=
  ["__init__", "__del__", "connect", "disconnect", "check_connection",
   "get_tables", "drop_table", "_get_milvus_operator",
   "_translate_metadata_conditions", "select", "create_table", "insert",
   "delete", "get_columns"]

/-- Modelled from the spec: the attribute set contributed by the
VectorStoreHandler base class (mindsdb.integrations.libs.vectordatabase_handler,
not under src). Spec section 9 models the base as the capability-set contract
with one method per SQL verb, and spec section 4.2 places the per-target
operator table in each target handler (for Milvus that is
_get_milvus_operator); the base therefore contributes no attribute named
_get_chromadb_operator. -/
def vectorStoreHandlerMethods : List String :=
  ["select", "insert", "update", "delete", "create_table", "drop_table",
   "get_tables", "get_columns"]

/-- Python attribute lookup on a MilvusHandler instance: the name must be
defined on the class or on its base. -/
def milvusHasAttr (name : String) : Bool :=
  milvusHandlerMethods.contains name || vectorStoreHandlerMethods.contains name

/-- The clause the f-string at line 161-162 builds for one condition, with
the operator token taken from the enumerated table defined in the class:
open parenthesis, last dotted component of the column, operator token,
rendered value, close parenthesis. -/
def milvusClause (c : FilterCondition) : String :=
  "(" ++ (pySplitDot c.column).getLastD "" ++ " " ++
    get_milvus_operator c.op ++ " " ++ c.value.render ++ ")"

/-- MilvusHandler._translate_metadata_conditions (lines 128-164).
A None condition list gives None; conditions whose column does not start
with the metadata prefix are dropped (line 148 comment: ignore all
non-metadata conditions); when no metadata condition remains the result is
None. Building the first clause evaluates self._get_chromadb_operator, an
attribute defined neither on MilvusHandler nor on its base (milvusHasAttr),
so that evaluation raises AttributeError; the resolved branch kept here for
comparison uses the enumerated table the class does define. -/
def translate_metadata_conditions (conditions : Option (List FilterCondition)) :
    Except PyErr (Option String) :=
  match conditions with
  | none => .ok none
  | some conds =>
    let metadata_conditions := conds.filter (fun c => pyStartsWith c.column metadataField)
    if metadata_conditions.length = 0 then .ok none
    else if milvusHasAttr "_get_chromadb_operator" then
      .ok (some (String.intercalate " and " (metadata_conditions.map milvusClause)))
    else .error (.attributeError "_get_chromadb_operator")

/-- The translation the docstring of _translate_metadata_conditions documents
(lines 131-147): the very same computation with the operator lookup resolved
to the _get_milvus_operator table the class defines. -/
def translate_metadata_conditions_intended
    (conditions : Option (List FilterCondition)) : Option String :=
  match conditions with
  | none => none
  | some conds =>
    let metadata_conditions := conds.filter (fun c => pyStartsWith c.column metadataField)
    if metadata_conditions.length = 0 then none
    else some (String.intercalate " and " (metadata_conditions.map milvusClause))

/-- The search_arguments dictionary of MilvusHandler.select as it stands when
a pymilvus call is issued: one field per possible key; an Option field is
none exactly when the key is absent. The param field records whether the
key "param" is present (its payload, the connection search parameters, is
outside the claims). -/
structure SearchArgs where
  output_fields : List String
  expr : Option String
  limit : Option Int
  param : Bool
  data : List Value
  anns_field : Option String
deriving DecidableEq, Repr

/-- The observable outcome of MilvusHandler.select at the pymilvus boundary:
a typed HandlerResponse error, an uncaught Python error, or the issuing of
collection.search or collection.query with the built arguments (collection
loading and result post-processing are outside the model boundary). -/
inductive MilvusOutcome where
  | errorResponse (msg : String)
  | raised (e : PyErr)
  | search (args : SearchArgs)
  | query (args : SearchArgs)
deriving DecidableEq, Repr

/-- Whether the outcome is the typed error HandlerResponse. -/
def MilvusOutcome.isErrorResponse : MilvusOutcome → Bool
  | .errorResponse _ => true
  | _ => false

/-- MilvusHandler.select (lines 166-260), modelled up to the point where the
pymilvus call would be issued. Parameter order follows the source signature:
columns, conditions, offset, limit. Steps in source order:
vector filter extraction (184-193), output_fields (196-202, with Python
truthiness: None and the empty list both fall to the schema names), the expr
assignment (203-204) which runs the metadata translation and can raise, the
ceiling guard (205-211) which fires only when BOTH limit and offset are
given, the limit key (212-213), the offset assignment (214-215) which
subscripts the absent key "param" and therefore raises KeyError whenever an
offset is given, then the vector-search path (219-224) or the basic query
path (246-259) where a falsy expr becomes the empty string, a missing limit
defaults to 100 on that path only, and output_fields is overwritten. -/
def milvusSelect (columns : Option (List String))
    (conditions : Option (List FilterCondition))
    (offset : Option Int) (limit : Option Int) : MilvusOutcome :=
  let vector_filter : List Value :=
    match conditions with
    | none => []
    | some conds =>
      (conds.filter (fun c => c.column = searchVectorField)).map (fun c => c.value)
  let colsTruthy : Bool :=
    match columns with
    | none => false
    | some l => !l.isEmpty
  let output_fields0 : List String :=
    if colsTruthy then columns.getD [] else vectorStoreSchemaNames
  match translate_metadata_conditions conditions with
  | .error e => .raised e
  | .ok expr =>
    if limit.isSome ∧ offset.isSome ∧ limit.getD 0 + offset.getD 0 ≥ 16384 then
      .errorResponse "Sum of limit and offset should be less than 16384"
    else if offset.isSome then
      .raised (.keyError "param")
    else if !vector_filter.isEmpty then
      .search ⟨output_fields0, expr, limit, true, vector_filter, some embeddingsField⟩
    else
      let exprFalsy : Bool :=
        match expr with
        | none => true
        | some s => s == ""
      let expr2 : Option String := if exprFalsy then some "" else expr
      let limit2 : Option Int :=
        if exprFalsy && limit.isNone then some 100 else limit
      let out2 : List String :=
        if colsTruthy then columns.getD []
        else [idField, contentField, embeddingsField, metadataField]
      .query ⟨out2, expr2, limit2, false, [], none⟩

/-! ## Tabular model shared by the API-table embeddings -/

/-- A cell of a fetched tabular result: null (pandas NaN / missing), an
integer, or a string. -/
inductive Cell where
  | null
  | int (i : Int)
  | str (s : String)
deriving DecidableEq, Repr

/-- Total comparison on cell VALUES: ints below strings, each kind compared
internally. Null placement is not decided here: on the multi-key path keyOrd
places nulls last regardless of direction (na_position default last), and on
the single-key path nargsortQuicksort masks nulls out before comparing, so
the null arms below are never the deciding comparison of a sort. -/
def Cell.cmp : Cell → Cell → Ordering
  | .null, .null => .eq
  | .null, _ => .lt
  | _, .null => .gt
  | .int a, .int b => if a = b then .eq else if a < b then .lt else .gt
  | .int _, .str _ => .lt
  | .str _, .int _ => .gt
  | .str a, .str b => if a = b then .eq else if a < b then .lt else .gt

/-- A pandas DataFrame: a column-name list and rows of cells, each row
positionally aligned with the column list. -/
structure DataFrame where
  cols : List String
  rows : List (List Cell)
deriving DecidableEq, Repr

/-- The cell of a row under a given column name (positional lookup in the
aligned column list); null when the column is absent. -/
def cellAt : List String → List Cell → String → Cell
  | [], _, _ => .null
  | _, [], _ => .null
  | c :: cs, v :: vs, k => if c = k then v else cellAt cs vs k

/-- Keep the cells of a row whose column is in the selected list, preserving
the positional (source) order — the effect on one row of dropping every
non-selected column. -/
def keepRow : List String → List Cell → List String → List Cell
  | [], _, _ => []
  | _, [], _ => []
  | c :: cs, v :: vs, selected =>
    if selected.contains c then v :: keepRow cs vs selected
    else keepRow cs vs selected

/-- Lines 93-95 of youtube_tables.py: drop every column not selected. The
surviving columns keep the order of the frame itself, not the order in which
they were selected. -/
def DataFrame.keepCols (df : DataFrame) (selected : List String) : DataFrame :=
  ⟨df.cols.filter (fun c => selected.contains c),
   df.rows.map (fun r => keepRow df.cols r selected)⟩

/-- Direction adjustment of one sort-key comparison: a descending key swaps
the ordering. -/
def dirOrd (asc : Bool) (o : Ordering) : Ordering :=
  if asc then o else o.swap

/-- One key comparison of df.sort_values: the direction flag applies to the
values, while nulls (pandas NaN) sort last regardless of direction, as the
default na_position=last prescribes. -/
def keyOrd (asc : Bool) (a b : Cell) : Ordering :=
  match a, b with
  | .null, .null => .eq
  | .null, _ => .gt
  | _, .null => .lt
  | a, b => dirOrd asc (Cell.cmp a b)

/-- Multi-key row comparison of df.sort_values: the first key dominates, each
key carries its own ascending flag. -/
def rowOrd (cols : List String) (keys : List (String × Bool))
    (r s : List Cell) : Ordering :=
  match keys with
  | [] => .eq
  | (k, asc) :: rest =>
    match keyOrd asc (cellAt cols r k) (cellAt cols s k) with
    | .eq => rowOrd cols rest r s
    | o => o

/-- Stable insertion: the new row walks past strictly smaller rows only, so
it lands before every row comparing equal to it. -/
def stableInsert (cols : List String) (keys : List (String × Bool))
    (r : List Cell) : List (List Cell) → List (List Cell)
  | [] => [r]
  | s :: rest =>
    if rowOrd cols keys r s = .gt then s :: stableInsert cols keys r rest
    else r :: s :: rest

/-- The TWO-OR-MORE-KEY path of df.sort_values: pandas routes a by list of
at least two columns through lexsort_indexer, i.e. numpy lexsort, which is
stable, so this path is modelled by a stable insertion sort under rowOrd: an
earlier row is inserted after later rows only when strictly greater. The
single-key path goes through numpy quicksort instead (see sortValuesRows)
and is NOT modelled by this function. -/
def stableSortRows (cols : List String) (keys : List (String × Bool)) :
    List (List Cell) → List (List Cell)
  | [] => []
  | r :: rest => stableInsert cols keys r (stableSortRows cols keys rest)

/-- The vector of sort-key cells of one row, the data rowOrd compares. -/
def keyVec (cols : List String) (keys : List (String × Bool))
    (r : List Cell) : List Cell :=
  keys.map (fun kb => cellAt cols r kb.1)

/-- Strict less-than on cell values, the comparison the numpy sort uses. -/
def cellLt (a b : Cell) : Bool :=
  Cell.cmp a b == .lt

/-- Exchange two positions of an index list (INTP_SWAP of the numpy sort;
out-of-range positions leave the list unchanged, List.set being a no-op
there, and never arise in the calls below). -/
def listSwap (t : List Nat) (i j : Nat) : List Nat :=
  (t.set i (t.getD j 0)).set j (t.getD i 0)

/-- The value v[t[k]] the argsort compares: position k of the index list,
read through the value list. -/
def idxVal (v : List Cell) (t : List Nat) (k : Nat) : Cell :=
  v.getD (t.getD k 0) Cell.null

/-- The rising scan of the numpy quicksort partition: do increment pi while
v[t[pi]] is less than the pivot (npysort aquicksort). Fuel bounds the walk;
the callers pass the list length, which the parked pivot makes sufficient. -/
def qsScanUp (v : List Cell) (vp : Cell) (t : List Nat) : Nat → Nat → Nat
  | 0, pi => pi + 1
  | fuel + 1, pi =>
    if cellLt (idxVal v t (pi + 1)) vp then qsScanUp v vp t fuel (pi + 1)
    else pi + 1

/-- The falling scan of the partition: do decrement pj while the pivot is
less than v[t[pj]]. -/
def qsScanDown (v : List Cell) (vp : Cell) (t : List Nat) : Nat → Nat → Nat
  | 0, pj => pj - 1
  | fuel + 1, pj =>
    if cellLt vp (idxVal v t (pj - 1)) then qsScanDown v vp t fuel (pj - 1)
    else pj - 1

/-- The exchange loop of the partition: scan up, scan down, stop when the
scans cross, otherwise swap the out-of-place pair and continue. Returns the
index list and the crossing position pi. -/
def qsPartLoop (v : List Cell) (vp : Cell) : Nat → List Nat → Nat → Nat → List Nat × Nat
  | 0, t, pi, _ => (t, pi)
  | fuel + 1, t, pi, pj =>
    let pi2 := qsScanUp v vp t t.length pi
    let pj2 := qsScanDown v vp t t.length pj
    if pi2 ≥ pj2 then (t, pi2)
    else qsPartLoop v vp fuel (listSwap t pi2 pj2) pi2 pj2

/-- The inner shift of the insertion sort for small segments: move greater
elements one place up until the insertion point for index vi is found. -/
def insShift (v : List Cell) (vp : Cell) (vi lo : Nat) : Nat → List Nat → Nat → List Nat
  | 0, t, pj => t.set pj vi
  | fuel + 1, t, pj =>
    if pj > lo ∧ cellLt vp (idxVal v t (pj - 1)) then
      insShift v vp vi lo fuel (t.set pj (t.getD (pj - 1) 0)) (pj - 1)
    else t.set pj vi

/-- Insertion sort of the index segment [lo, hi], the numpy sort for
partitions of at most SMALL_QUICKSORT + 1 = 16 elements (this part is
stable). -/
def insSortSeg (v : List Cell) (t0 : List Nat) (lo hi : Nat) : List Nat :=
  (List.range' (lo + 1) (hi - lo)).foldl (fun t pi =>
    let vi := t.getD pi 0
    insShift v (v.getD vi Cell.null) vi lo t.length t pi) t0

/-- The numpy npysort argsort of kind quicksort (aquicksort) over the index
segment [lo, hi]: segments of more than 16 elements take a median-of-3
pivot of the lo, middle and hi positions, park the pivot index at hi - 1,
run the exchange partition, restore the pivot to the crossing point and
recurse on the two disjoint sub-segments; segments of at most 16 elements
are insertion sorted. The index exchanges of the partition reorder equal
elements, which is why this kind is documented as not stable. Two
departures from the C code, neither affecting the resulting list: the
explicit smaller/larger partition stack is replaced by recursion on the two
disjoint segments, and the depth-limit heapsort fallback is elided (it
engages only on adversarial pivot sequences, where it would merely produce
a different unstable permutation). Fuel bounds the recursion depth; the
wrapper passes the list length, which always suffices since each level
shrinks the segment. -/
def introSortAux (v : List Cell) : Nat → List Nat → Nat → Nat → List Nat
  | 0, t, _, _ => t
  | fuel + 1, t, lo, hi =>
    if hi ≤ lo + 15 then insSortSeg v t lo hi
    else
      let pm := lo + (hi - lo) / 2
      let t1 := if cellLt (idxVal v t pm) (idxVal v t lo) then listSwap t pm lo else t
      let t2 := if cellLt (idxVal v t1 hi) (idxVal v t1 pm) then listSwap t1 hi pm else t1
      let t3 := if cellLt (idxVal v t2 pm) (idxVal v t2 lo) then listSwap t2 pm lo else t2
      let vp := idxVal v t3 pm
      let t4 := listSwap t3 pm (hi - 1)
      let pr := qsPartLoop v vp t4.length t4 lo (hi - 1)
      let t6 := listSwap pr.1 pr.2 (hi - 1)
      let tL := introSortAux v fuel t6 lo (pr.2 - 1)
      introSortAux v fuel tL (pr.2 + 1) hi

/-- numpy argsort with the default kind quicksort: the identity index list
refined by the introsort above. -/
def npArgsortQuicksort (v : List Cell) : List Nat :=
  if v.length ≤ 1 then List.range v.length
  else introSortAux v v.length (List.range v.length) 0 (v.length - 1)

/-- The pandas nargsort of one sort key, which sort_values uses when the by
list has exactly one column: mask the nulls out, argsort the remaining
values with numpy quicksort (reversing them and the index base first for a
descending key, and the resulting indexer back), then append the null
positions at the end (na_position default last). -/
def nargsortQuicksort (keyvals : List Cell) (asc : Bool) : List Nat :=
  let idx := List.range keyvals.length
  let nonNanIdx := idx.filter (fun i => !(keyvals.getD i Cell.null == Cell.null))
  let nanIdx := idx.filter (fun i => keyvals.getD i Cell.null == Cell.null)
  let nonNans := nonNanIdx.map (fun i => keyvals.getD i Cell.null)
  let nonNans2 := if asc then nonNans else nonNans.reverse
  let nonNanIdx2 := if asc then nonNanIdx else nonNanIdx.reverse
  let order := npArgsortQuicksort nonNans2
  let indexer := order.map (fun k => nonNanIdx2.getD k 0)
  let indexer2 := if asc then indexer else indexer.reverse
  indexer2 ++ nanIdx

/-- df.sort_values as called at youtube_tables.py lines 98-101, dispatching
the way pandas does on the length of the by list: exactly one sort key goes
through nargsort over that key — numpy argsort of the default kind
quicksort, which is documented as NOT stable — and the rows are reordered
by the resulting indexer; two or more keys go through lexsort_indexer,
numpy lexsort, a stable sort, modelled by the stable insertion sort
stableSortRows. -/
def sortValuesRows (cols : List String) (keys : List (String × Bool))
    (rows : List (List Cell)) : List (List Cell) :=
  match keys with
  | [kb] =>
    let keyvals := rows.map (fun r => cellAt cols r kb.1)
    (nargsortQuicksort keyvals kb.2).map (fun i => rows.getD i [])
  | _ => stableSortRows cols keys rows

/-! ## Youtube comments table embedding
(src/mindsdb/integrations/handlers/youtube_handler/youtube_tables.py) -/

/-- The declared canonical column list of the youtube comments table
(YoutubeCommentsTable.get_columns, lines 108-115). -/
def youtubeColumns : List String :=
  ["channel_id", "video_id", "user_id", "display_name", "comment",
   "replies.user_id", "replies.reply_author", "replies.reply"]

/-- A projection target of the SELECT: a star, an identifier with its dotted
parts, or any other AST node kind (function call etc.), which select
rejects. -/
inductive YTarget where
  | star
  | ident (parts : List String)
  | other (desc : String)
deriving DecidableEq, Repr

/-- Lines 80-88: build selected_columns. A Star ASSIGNS the full declared
column list and breaks out of the loop (discarding identifiers already
collected); an Identifier appends its last dotted part; any other target
raises ValueError. -/
def youtubeSelectedColumns : List YTarget → List String → Except String (List String)
  | [], acc => .ok acc
  | .star :: _, _ => .ok youtubeColumns
  | .ident ps :: rest, acc => youtubeSelectedColumns rest (acc ++ [ps.getLastD ""])
  | .other desc :: _, _ => .error ("Unknown query target " ++ desc)

/-- One extracted comparison condition as the youtube table receives it from
extract_comparison_conditions: the triple (operator, column, value), values
being the string literals of the claims. -/
structure YCond where
  op : String
  col : String
  val : String
deriving DecidableEq, Repr

/-- The conditions loop of YoutubeCommentsTable.select, lines 60-73,
threading the video_id and channel_id locals: a video_id condition must use
the equals operator and binds the video id (a later one overwrites an
earlier one), likewise channel_id; any other column raises ValueError. -/
def youtubeExtractIds : List YCond → Option String × Option String →
    Except String (Option String × Option String)
  | [], acc => .ok acc
  | c :: rest, (vid, chid) =>
    if c.col = "video_id" then
      if c.op ≠ "=" then .error "Unsupported where operation for video_id"
      else youtubeExtractIds rest (some c.val, chid)
    else if c.col = "channel_id" then
      if c.op ≠ "=" then .error "Unsupported where operation for channel_id"
      else youtubeExtractIds rest (vid, some c.val)
    else .error ("Unsupported where argument " ++ c.col)

/-- Python truthiness of the optional string locals: None is falsy and so is
the empty string. -/
def truthyStr : Option String → Bool
  | none => false
  | some s => !(s == "")

/-- Lines 60-76: the conditions loop followed by the mutual-exclusivity
check, which tests the TRUTHINESS of both locals (so an empty-string id
slips through). -/
def youtubeConditionStage (cs : List YCond) :
    Except String (Option String × Option String) :=
  match youtubeExtractIds cs (none, none) with
  | .error e => .error e
  | .ok ids =>
    if truthyStr ids.1 && truthyStr ids.2 then
      .error "Only one of video_id or channel_id can be present in where clause."
    else .ok ids

/-- One ORDER BY entry as the source indexes it: field.parts[0],
field.parts[1] and the direction string. -/
structure YOrder where
  part0 : String
  part1 : String
  direction : String
deriving DecidableEq, Repr

/-- Lines 43-58: build the order-by key list. Line 49 is the bare expression
statement next (a reference to the builtin, not a continue), a no-op, so
part0 never affects the outcome; parts[1] must be a declared column or the
loop raises; ascending is exactly direction == ASC. -/
def youtubeOrderBy : List YOrder → Except String (List (String × Bool))
  | [] => .ok []
  | o :: rest =>
    if youtubeColumns.contains o.part1 then
      match youtubeOrderBy rest with
      | .error e => .error e
      | .ok tail => .ok ((o.part1, o.direction == "ASC") :: tail)
    else .error ("Order by unknown column " ++ o.part1)

/-- The parsed SELECT against the youtube comments table: projection targets,
extracted WHERE triples, ORDER BY entries and the optional limit (the Limit
AST node is truthy whenever present, even with value 0). -/
structure YQuery where
  targets : List YTarget
  conds : List YCond
  order_by : List YOrder
  limit : Option Nat
deriving DecidableEq, Repr

/-- YoutubeCommentsTable.select, lines 24-106, with the remote fetch
(call_youtube_comments_api) supplied as the fetched rows; the fetched frame
carries the eight declared columns in canonical order (line 174 of the
source guarantees that shape). Stage order follows the source: order-by
validation, the conditions stage, the fetch boundary, selected columns, then
either the empty-frame branch (line 90-91: an empty frame whose columns are
the SELECTED columns) or column renaming plus dropping plus sorting (lines
93-101; sorting a column that was dropped raises KeyError in pandas), and
finally the limit (lines 103-104). -/
def youtubeCommentsSelect (q : YQuery) (fetchedRows : List (List Cell)) :
    Except String DataFrame :=
  match youtubeOrderBy q.order_by with
  | .error e => .error e
  | .ok order_keys =>
    match youtubeConditionStage q.conds with
    | .error e => .error e
    | .ok _ =>
      match youtubeSelectedColumns q.targets [] with
      | .error e => .error e
      | .ok selected =>
        let dfRes : Except String DataFrame :=
          if fetchedRows.isEmpty then .ok ⟨selected, []⟩
          else
            let df1 := DataFrame.keepCols ⟨youtubeColumns, fetchedRows⟩ selected
            if order_keys.isEmpty then .ok df1
            else if order_keys.all (fun kb => df1.cols.contains kb.1) then
              .ok ⟨df1.cols, sortValuesRows df1.cols order_keys df1.rows⟩
            else .error "KeyError: order by column was dropped by the projection"
        match dfRes with
        | .error e => .error e
        | .ok df =>
          match q.limit with
          | some n => .ok ⟨df.cols, df.rows.take n⟩
          | none => .ok df

/-! ## Cryptopanic news table embedding
(src/mindsdb/integrations/handlers/cryptopanic_handler/cryptopanic_tables.py) -/

/-- One extracted comparison condition as the news table receives it from
extract_comparison_conditions: (operator, column, value). Values are
modelled as the string literals of the claims, so the isinstance branch of
the source that handles string values is the one taken. -/
structure CPCond where
  op : String
  col : String
  val : String
deriving DecidableEq, Repr

/-- The column names the loop at lines 29-45 can push as API parameters. -/
def cpPushableCols : List String :=
  ["filters", "currency", "regions", "kind", "following"]

/-- A condition matches one of the five if-branches of the loop exactly when
its operator is equals and its column is one of the five parameter
columns. -/
def cpPushable (c : CPCond) : Bool :=
  c.op == "=" && cpPushableCols.contains c.col

/-- The api_condition key a pushable column sets: the currency column is
renamed to currencies, the rest keep their name. -/
def cpApiKey (col : String) : String :=
  if col == "currency" then "currencies" else col

/-- A Python dict of string keys and values, as an insertion-ordered
association list. -/
abbrev CPDict : Type := List (String × String)

/-- dict[k] = v: replace the value of an existing key, else append. -/
def dictSet (d : CPDict) (k v : String) : CPDict :=
  match d with
  | [] => [(k, v)]
  | (k0, v0) :: rest =>
    if k0 = k then (k, v) :: rest else (k0, v0) :: dictSet rest k v

/-- dict.get(k): the value of the first matching key. -/
def dictGet (d : CPDict) (k : String) : Option String :=
  match d with
  | [] => none
  | (k0, v0) :: rest => if k0 = k then some v0 else dictGet rest k

/-- Python list.remove(x): delete the first element equal to x. -/
def pyRemove (x : CPCond) : List CPCond → List CPCond
  | [] => []
  | y :: rest => if y = x then rest else y :: pyRemove x rest

/-- Removing a present element shortens the list by one. -/
theorem pyRemove_length_of_mem (x : CPCond) :
    ∀ l : List CPCond, x ∈ l → (pyRemove x l).length + 1 = l.length := by
  intro l hx
  induction l with
  | nil => cases hx
  | cons y rest ih =>
    by_cases hyx : y = x
    · simp [pyRemove, hyx]
    · rcases List.mem_cons.mp hx with h | h
      · exact absurd h.symm hyx
      · simp [pyRemove, hyx, ih h]

/-- The for-in-with-remove loop of NewsTable.select, lines 29-45, modelled
at the CPython iterator level: the iterator keeps a position into the list
it mutates; yielding the element at position i advances the position, and
when the body removes the current element every later element slides one
place left, so the element that was next is skipped. Returns the
api_condition entries the loop set and the condition list as the loop left
it (the leftover conditions are never looked at again by select). -/
def newsConditionLoop (conds : List CPCond) (i : Nat) (params : CPDict) :
    CPDict × List CPCond :=
  if h : i < conds.length then
    let c := conds.get ⟨i, h⟩
    if cpPushable c then
      newsConditionLoop (pyRemove c conds) (i + 1)
        (dictSet params (cpApiKey c.col) c.val)
    else
      newsConditionLoop conds (i + 1) params
  else (params, conds)
termination_by conds.length - i
decreasing_by
  · have := pyRemove_length_of_mem (conds.get ⟨i, h⟩) conds (conds.get_mem i h)
    omega
  · omega

/-- A projection target of the news-table SELECT: a star or an identifier
(the source reads target.value as the column name). -/
inductive CPTarget where
  | star
  | ident (value : String)
deriving DecidableEq, Repr

/-- Lines 72-78 of filter_columns: a Star assigns the full declared column
list and breaks (discarding identifiers already collected); an Identifier
appends its value. -/
def cpSelectedColumns (declared : List String) :
    List CPTarget → List String → List String
  | [], acc => acc
  | .star :: _, _ => declared
  | .ident v :: rest, acc => cpSelectedColumns declared rest (acc ++ [v])

/-- NewsTable.filter_columns, lines 66-80: builds df[columns] from the
query targets and RETURNS the projected frame (pandas raises KeyError when
a selected column is missing from the frame). -/
def filter_columns (df : DataFrame) (targets : List CPTarget)
    (declared : List String) : Except String DataFrame :=
  let columns := cpSelectedColumns declared targets []
  if columns.all (fun c => df.cols.contains c) then
    .ok ⟨columns, df.rows.map (fun r => columns.map (fun c => cellAt df.cols r c))⟩
  else .error "KeyError: selected column not in the frame"

/-- The parsed SELECT against the news table: projection targets, extracted
WHERE triples and the optional literal limit. -/
structure CPQuery where
  targets : List CPTarget
  conds : List CPCond
  limit : Option Int
deriving DecidableEq, Repr

/-- NewsTable.select, lines 12-56, with the remote call
(call_cryptopanic_api) supplied as the fetched frame and the declared
column list (self.columns, set outside src) as a parameter. After the
condition loop the lookback entry is set (Python floor division; the
outer ceil of an int is the int itself) and the api_token entry is added;
line 54 calls filter_columns but DROPS its result, so the frame returned is
the fetched frame itself, though the dropped call still runs and its
KeyError would propagate. Returns the api params pushed, the leftover
conditions, and the returned frame. -/
def newsSelect (q : CPQuery) (apiToken : String) (fetched : DataFrame)
    (declared : List String) :
    Except String (CPDict × List CPCond × DataFrame) :=
  let pl := newsConditionLoop q.conds 0 []
  let lookback : Int :=
    match q.limit with
    | none => Int.fdiv 200 200
    | some l => Int.fdiv l 200
  let params := dictSet (dictSet pl.1 "lookback" (toString lookback))
    "api_token" apiToken
  match filter_columns fetched q.targets declared with
  | .error e => .error e
  | .ok _ => .ok (params, pl.2, fetched)

/-! ## Claim theorems -/

/-- The docstring example of _translate_metadata_conditions: metadata.price
less than 1000 and metadata.price greater than 300. -/
def c1ExampleConds : List FilterCondition :=
  [⟨"metadata.price", .LESS_THAN, .int 1000⟩,
   ⟨"metadata.price", .GREATER_THAN, .int 300⟩]

/-- C1: at the docstring example the translation as written raises
AttributeError on the undefined _get_chromadb_operator instead of returning
the documented string, while the same computation with the lookup resolved
to the _get_milvus_operator table the class defines yields exactly
"(price < 1000) and (price > 300)" — the code contradicts its own
docstring; the claim describes the intended behavior. -/
theorem c1_translate_raises_attribute_error :
    translate_metadata_conditions (some c1ExampleConds) =
      .error (.attributeError "_get_chromadb_operator") ∧
    translate_metadata_conditions_intended (some c1ExampleConds) =
      some "(price < 1000) and (price > 300)" := by
  exact ⟨rfl, rfl⟩

/-- C2 counterexample: a limit of 16384 with no offset reaches the declared
ceiling on its own, yet select issues the basic query (pushing the limit
unchanged) instead of returning an error response — the claim fails for
windows given through only one of limit and offset. -/
theorem c2_counterexample :
    milvusSelect (some ["id"]) none none (some 16384) =
      .query ⟨["id"], some "", some 16384, false, [], none⟩ ∧
    (milvusSelect (some ["id"]) none none (some 16384)).isErrorResponse = false := by
  exact ⟨rfl, rfl⟩

/-- C2 amended: the ceiling guard fires only when BOTH limit and offset are
given; in that case (provided the metadata translation returned normally,
which the source runs first) select returns the explicit error response
before any search or query is issued. -/
theorem c2_amended (columns : Option (List String))
    (conditions : Option (List FilterCondition)) (e : Option String)
    (l o : Int)
    (htr : translate_metadata_conditions conditions = .ok e)
    (h : l + o ≥ 16384) :
    milvusSelect columns conditions (some o) (some l) =
      .errorResponse "Sum of limit and offset should be less than 16384" := by
  unfold milvusSelect
  rw [htr]
  simp only [Option.isSome_some, Option.getD_some]
  rw [if_pos ⟨trivial, trivial, h⟩]

/-- C2 witness: both limit 16000 and offset 400 given, summing past the
ceiling, produce the error response. -/
theorem c2_amended_witness :
    milvusSelect none none (some 400) (some 16000) =
      .errorResponse "Sum of limit and offset should be less than 16384" :=
  c2_amended none none none 16000 400 rfl (by norm_num)

/-- A concrete search-vector condition (the reserved similarity-search
column). -/
def svCond : FilterCondition := ⟨"search_vector", .EQUAL, .vec [1, 2, 3]⟩

/-- C3 counterexample: a similarity search with limit None and offset None
is issued with NO limit key at all — the default of 100 is not applied on
the vector path. -/
theorem c3_counterexample :
    milvusSelect (some ["id"]) (some [svCond]) none none =
      .search ⟨["id"], none, none, true, [.vec [1, 2, 3]], some embeddingsField⟩ ∧
    (SearchArgs.limit ⟨["id"], none, none, true, [.vec [1, 2, 3]], some embeddingsField⟩)
      = none := by
  exact ⟨rfl, rfl⟩

/-- C3 amended: the target-declared default limit of 100 is applied only on
the non-vector query path when the filter expression is falsy; a similarity
search with limit None and offset None is issued without any limit, while a
conditionless basic query with limit None does get limit 100. -/
theorem c3_amended (columns : Option (List String))
    (conditions : List FilterCondition) (e : Option String)
    (c : FilterCondition) (hc : c ∈ conditions)
    (hcol : c.column = searchVectorField)
    (htr : translate_metadata_conditions (some conditions) = .ok e) :
    (∃ a : SearchArgs,
      milvusSelect columns (some conditions) none none = .search a ∧
      a.limit = none) ∧
    (∃ a : SearchArgs,
      milvusSelect columns none none none = .query a ∧
      a.limit = some 100) := by
  constructor
  · have hmem : c ∈ conditions.filter (fun d => decide (d.column = searchVectorField)) :=
      List.mem_filter.mpr ⟨hc, by simp [hcol]⟩
    have hne2 : ((conditions.filter (fun d => decide (d.column = searchVectorField))).map
        (fun d => d.value)).isEmpty = false := by
      simp only [List.isEmpty_eq_false]
      exact List.ne_nil_of_mem (List.mem_map_of_mem _ hmem)
    simp only [milvusSelect, htr, Option.isSome_none, Bool.false_eq_true, false_and,
      and_false, if_false, hne2, Bool.not_false, if_true]
    exact ⟨_, rfl, rfl⟩
  · exact ⟨_, rfl, rfl⟩

/-- C3 witness: the concrete similarity search and the concrete basic query
instantiating the amended statement. -/
theorem c3_amended_witness :
    (∃ a : SearchArgs,
      milvusSelect (some ["id"]) (some [svCond]) none none = .search a ∧
      a.limit = none) ∧
    (∃ a : SearchArgs,
      milvusSelect (some ["id"]) none none none = .query a ∧
      a.limit = some 100) :=
  c3_amended (some ["id"]) [svCond] none svCond (by simp) rfl rfl

/-- C9 counterexample: on the search-vector path with a requested offset of
5 the call raises KeyError on the absent key "param" — no search is ever
executed, so the offset is not discarded from an executed search as the
claim describes; execution never reaches the param reassignment. -/
theorem c9_counterexample :
    milvusSelect (some ["id"]) (some [svCond]) (some 5) none =
      .raised (.keyError "param") := by
  exact rfl

/-- C9 amended: whenever an offset is given and the both-given ceiling guard
does not fire (and the metadata translation returned normally), select
raises KeyError "param" on every path, vector or not: search_arguments has
no key "param" when line 215 subscripts it, and the vector-path
reassignment of "param" is never reached with a requested offset. -/
theorem c9_amended (columns : Option (List String))
    (conditions : Option (List FilterCondition)) (e : Option String)
    (o : Int) (limit : Option Int)
    (htr : translate_metadata_conditions conditions = .ok e)
    (hg : ¬ (limit.isSome = true ∧ limit.getD 0 + o ≥ 16384)) :
    milvusSelect columns conditions (some o) limit =
      .raised (.keyError "param") := by
  simp only [milvusSelect, htr, Option.isSome_some, Option.getD_some]
  rw [if_neg (by
    rintro ⟨h1, _, h3⟩
    exact hg ⟨h1, h3⟩)]
  rw [if_pos trivial]

/-- C9 witness: a plain query with offset 5 and no limit raises the
KeyError. -/
theorem c9_amended_witness :
    milvusSelect (some ["id"]) none (some 5) none =
      .raised (.keyError "param") :=
  c9_amended (some ["id"]) none none 5 none rfl (by simp)

/-- Comparing a cell with itself yields eq. -/
theorem cell_cmp_self (c : Cell) : Cell.cmp c c = .eq := by
  cases c <;> simp [Cell.cmp]

/-- Comparing a cell with itself under a sort key yields eq, whatever the
direction. -/
theorem keyOrd_self (asc : Bool) (c : Cell) : keyOrd asc c c = .eq := by
  cases c <;> cases asc <;> simp [keyOrd, dirOrd, Cell.cmp, Ordering.swap]

/-- Rows with equal sort-key vectors compare as eq under the multi-key
ordering. -/
theorem rowOrd_eq_of_keyVec_eq (cols : List String) :
    ∀ (keys : List (String × Bool)) (r s : List Cell),
      keyVec cols keys r = keyVec cols keys s → rowOrd cols keys r s = .eq := by
  intro keys
  induction keys with
  | nil => intro r s _; rfl
  | cons kb rest ih =>
    obtain ⟨k, asc⟩ := kb
    intro r s h
    simp only [keyVec, List.map_cons, List.cons.injEq] at h
    have h2 : keyVec cols rest r = keyVec cols rest s := h.2
    simp only [rowOrd, h.1, keyOrd_self]
    exact ih r s h2

/-- Inserting a row whose key vector is k puts it in front of every row of
the target list that carries k: rows it walks past compare strictly below
it, hence carry a different key vector. -/
theorem filter_stableInsert_pos (cols : List String) (keys : List (String × Bool))
    (k : List Cell) (r : List Cell) (hr : keyVec cols keys r = k) :
    ∀ l : List (List Cell),
      (stableInsert cols keys r l).filter (fun s => decide (keyVec cols keys s = k)) =
        r :: l.filter (fun s => decide (keyVec cols keys s = k)) := by
  intro l
  induction l with
  | nil => simp [stableInsert, hr]
  | cons s t ih =>
    by_cases hgt : rowOrd cols keys r s = .gt
    · have hs : ¬ keyVec cols keys s = k := by
        intro hk
        have heq : rowOrd cols keys r s = .eq :=
          rowOrd_eq_of_keyVec_eq cols keys r s (hr.trans hk.symm)
        rw [heq] at hgt
        cases hgt
      simp [stableInsert, hgt, List.filter_cons, hs, ih]
    · simp [stableInsert, hgt, List.filter_cons, hr]

/-- Inserting a row whose key vector is not k leaves the k-rows of the
target list untouched. -/
theorem filter_stableInsert_neg (cols : List String) (keys : List (String × Bool))
    (k : List Cell) (r : List Cell) (hr : ¬ keyVec cols keys r = k) :
    ∀ l : List (List Cell),
      (stableInsert cols keys r l).filter (fun s => decide (keyVec cols keys s = k)) =
        l.filter (fun s => decide (keyVec cols keys s = k)) := by
  intro l
  induction l with
  | nil => simp [stableInsert, hr]
  | cons s t ih =>
    by_cases hgt : rowOrd cols keys r s = .gt
    · simp [stableInsert, hgt, List.filter_cons, ih]
    · simp [stableInsert, hgt, List.filter_cons, hr]

/-- The lexsort path is stable: for every sort key vector value, the rows
of the output carrying that key vector are exactly the rows of the input
carrying it, in the same relative order (the filter characterization of
stability). -/
theorem stableSortRows_filter_stable (cols : List String)
    (keys : List (String × Bool)) (rows : List (List Cell)) (k : List Cell) :
    (stableSortRows cols keys rows).filter (fun r => decide (keyVec cols keys r = k)) =
      rows.filter (fun r => decide (keyVec cols keys r = k)) := by
  induction rows with
  | nil => rfl
  | cons r t ih =>
    by_cases hr : keyVec cols keys r = k
    · rw [stableSortRows, filter_stableInsert_pos cols keys k r hr, ih]
      simp [List.filter_cons, hr]
    · rw [stableSortRows, filter_stableInsert_neg cols keys k r hr, ih]
      simp [List.filter_cons, hr]

/-- Seventeen rows sharing one sort-key value, with a distinguishing payload
column: the smallest shape on which the single-key quicksort path leaves the
stable insertion-sort regime (more than 16 elements). -/
def c5Rows : List (List Cell) :=
  (List.range 17).map (fun i => [Cell.int 7, Cell.int (i : Int)])

/-- C5 counterexample: a single ascending ORDER BY key over seventeen rows
whose sort keys are all equal — pandas hands a one-column by list to numpy
argsort of the default kind quicksort, whose partition exchanges rows with
equal keys, so the output row order differs from the fetched input order:
the sort is not stable in the single-key case, refuting the claim for
inputs with duplicate sort keys. -/
theorem c5_counterexample :
    (∀ r ∈ c5Rows, cellAt ["k", "p"] r "k" = Cell.int 7) ∧
    sortValuesRows ["k", "p"] [("k", true)] c5Rows ≠ c5Rows := by
  exact ⟨by decide, by decide⟩

/-- C5 amended: the sort of the Local Executor is stable whenever TWO OR
MORE sort keys are given (the lexsort path): for every sort key vector
value, the output rows carrying it are exactly the input rows carrying it,
in the same relative order. A single sort key goes through numpy quicksort
and carries no such guarantee (see the counterexample). -/
theorem c5_amended (cols : List String) (keys : List (String × Bool))
    (hkeys : 2 ≤ keys.length) (rows : List (List Cell)) (k : List Cell) :
    (sortValuesRows cols keys rows).filter (fun r => decide (keyVec cols keys r = k)) =
      rows.filter (fun r => decide (keyVec cols keys r = k)) := by
  cases keys with
  | nil => simp at hkeys
  | cons k1 rest1 =>
    cases rest1 with
    | nil => simp at hkeys
    | cons k2 rest =>
      exact stableSortRows_filter_stable cols (k1 :: k2 :: rest) rows k

/-- C5 witness: a two-key sort (first ascending, second descending) over
rows with duplicate key vectors preserves their relative order. -/
theorem c5_amended_witness :
    (sortValuesRows ["a", "b"] [("a", true), ("b", false)]
        [[Cell.int 1, Cell.int 2], [Cell.int 0, Cell.int 5],
         [Cell.int 1, Cell.int 2], [Cell.int 1, Cell.int 2]]).filter
        (fun r => decide (keyVec ["a", "b"] [("a", true), ("b", false)] r =
          [Cell.int 1, Cell.int 2])) =
      ([[Cell.int 1, Cell.int 2], [Cell.int 0, Cell.int 5],
        [Cell.int 1, Cell.int 2], [Cell.int 1, Cell.int 2]] :
          List (List Cell)).filter
        (fun r => decide (keyVec ["a", "b"] [("a", true), ("b", false)] r =
          [Cell.int 1, Cell.int 2])) :=
  c5_amended ["a", "b"] [("a", true), ("b", false)] (by decide)
    [[Cell.int 1, Cell.int 2], [Cell.int 0, Cell.int 5],
     [Cell.int 1, Cell.int 2], [Cell.int 1, Cell.int 2]]
    [Cell.int 1, Cell.int 2]

/-- A youtube condition acceptable to the loop: one of the two id columns,
with the equals operator. -/
def ycondOk (c : YCond) : Bool :=
  (c.col == "video_id" || c.col == "channel_id") && c.op == "="

/-- The conditions loop binds the last video_id value when every condition
is an equality on video_id, whatever the starting locals. -/
theorem youtubeExtract_all_video :
    ∀ (cs : List YCond) (hne : cs ≠ []),
      (∀ c ∈ cs, c.op = "=" ∧ c.col = "video_id") →
      ∀ vid chid : Option String,
        youtubeExtractIds cs (vid, chid) = .ok (some (cs.getLast hne).val, chid) := by
  intro cs
  induction cs with
  | nil => intro hne; cases hne rfl
  | cons c t ih =>
    intro hne hall vid chid
    obtain ⟨hop, hcol⟩ := hall c (List.mem_cons_self c t)
    by_cases ht : t = []
    · subst ht
      simp [youtubeExtractIds, hcol, hop, List.getLast]
    · rw [List.getLast_cons ht]
      have := ih ht (fun d hd => hall d (List.mem_cons_of_mem c hd)) (some c.val) chid
      simp [youtubeExtractIds, hcol, hop, this]

/-- The conditions loop binds the last channel_id value when every condition
is an equality on channel_id, whatever the starting locals. -/
theorem youtubeExtract_all_channel :
    ∀ (cs : List YCond) (hne : cs ≠ []),
      (∀ c ∈ cs, c.op = "=" ∧ c.col = "channel_id") →
      ∀ vid chid : Option String,
        youtubeExtractIds cs (vid, chid) = .ok (vid, some (cs.getLast hne).val) := by
  intro cs
  induction cs with
  | nil => intro hne; cases hne rfl
  | cons c t ih =>
    intro hne hall vid chid
    obtain ⟨hop, hcol⟩ := hall c (List.mem_cons_self c t)
    have hnv : ¬ c.col = "video_id" := by rw [hcol]; decide
    by_cases ht : t = []
    · subst ht
      simp [youtubeExtractIds, hnv, hcol, hop, List.getLast]
    · rw [List.getLast_cons ht]
      have := ih ht (fun d hd => hall d (List.mem_cons_of_mem c hd)) vid (some c.val)
      simp [youtubeExtractIds, hnv, hcol, hop, this]

/-- A condition outside the two id columns, or with another operator, makes
the loop raise. -/
theorem youtubeExtract_bad :
    ∀ (cs : List YCond), (∃ c ∈ cs, ycondOk c = false) →
      ∀ acc, (youtubeExtractIds cs acc).isOk = false := by
  intro cs
  induction cs with
  | nil => rintro ⟨c, hc, _⟩; cases hc
  | cons c t ih =>
    rintro ⟨d, hd, hbad⟩ ⟨vid, chid⟩
    rcases List.mem_cons.mp hd with h | h
    · subst h
      by_cases h1 : d.col = "video_id"
      · have h2 : ¬ d.op = "=" := by
          intro h2
          simp [ycondOk, h1, h2] at hbad
        simp [youtubeExtractIds, h1, h2, Except.isOk, Except.toBool]
      · by_cases h3 : d.col = "channel_id"
        · have h4 : ¬ d.op = "=" := by
            intro h4
            simp [ycondOk, h3, h4] at hbad
          simp [youtubeExtractIds, h1, h3, h4, Except.isOk, Except.toBool]
        · simp [youtubeExtractIds, h1, h3, Except.isOk, Except.toBool]
    · by_cases h1 : c.col = "video_id"
      · by_cases h2 : c.op = "="
        · simp [youtubeExtractIds, h1, h2, ih ⟨d, h, hbad⟩]
        · simp [youtubeExtractIds, h1, h2, Except.isOk, Except.toBool]
      · by_cases h3 : c.col = "channel_id"
        · by_cases h4 : c.op = "="
          · simp [youtubeExtractIds, h1, h3, h4, ih ⟨d, h, hbad⟩]
          · simp [youtubeExtractIds, h1, h3, h4, Except.isOk, Except.toBool]
        · simp [youtubeExtractIds, h1, h3, Except.isOk, Except.toBool]

/-- C7 counterexample: equality conditions on BOTH video_id and channel_id,
the channel value being the empty string, pass the truthiness-based
mutual-exclusivity check with no error — the claim that every such pair
fails does not hold. -/
theorem c7_counterexample :
    youtubeConditionStage [⟨"=", "video_id", "abc"⟩, ⟨"=", "channel_id", ""⟩] =
      .ok (some "abc", some "") := by
  exact rfl

/-- C7 amended: with both ids bound to NON-EMPTY values the mutual
exclusivity error is raised; conditions mentioning only one of the two id
columns with equality succeed and bind the last such value; any condition on
another column or with another operator makes the stage fail. An
empty-string id defeats the truthiness check (see the counterexample). -/
theorem c7_amended :
    (∀ (cs : List YCond) (v w : String),
      youtubeExtractIds cs (none, none) = .ok (some v, some w) → v ≠ "" → w ≠ "" →
      youtubeConditionStage cs =
        .error "Only one of video_id or channel_id can be present in where clause.") ∧
    (∀ (cs : List YCond) (hne : cs ≠ []),
      (∀ c ∈ cs, c.op = "=" ∧ c.col = "video_id") →
      youtubeConditionStage cs = .ok (some (cs.getLast hne).val, none)) ∧
    (∀ (cs : List YCond) (hne : cs ≠ []),
      (∀ c ∈ cs, c.op = "=" ∧ c.col = "channel_id") →
      youtubeConditionStage cs = .ok (none, some (cs.getLast hne).val)) ∧
    (∀ cs : List YCond, (∃ c ∈ cs, ycondOk c = false) →
      (youtubeConditionStage cs).isOk = false) := by
  refine ⟨?_, ?_, ?_, ?_⟩
  · intro cs v w hext hv hw
    have hv2 : (v == "") = false := by simpa using hv
    have hw2 : (w == "") = false := by simpa using hw
    simp [youtubeConditionStage, hext, truthyStr, hv2, hw2]
  · intro cs hne hall
    have := youtubeExtract_all_video cs hne hall none none
    simp [youtubeConditionStage, this, truthyStr]
  · intro cs hne hall
    have := youtubeExtract_all_channel cs hne hall none none
    simp [youtubeConditionStage, this, truthyStr]
  · intro cs hbad
    have := youtubeExtract_bad cs hbad (none, none)
    rcases hext : youtubeExtractIds cs (none, none) with e | ids
    · simp [youtubeConditionStage, hext, Except.isOk, Except.toBool]
    · rw [hext] at this
      simp [Except.isOk, Except.toBool] at this

/-- C7 witness: both ids non-empty errors; a single video_id binds;
a single channel_id binds; a non-equality operator fails. -/
theorem c7_amended_witness :
    youtubeConditionStage [⟨"=", "video_id", "abc"⟩, ⟨"=", "channel_id", "xyz"⟩] =
      .error "Only one of video_id or channel_id can be present in where clause." ∧
    youtubeConditionStage [⟨"=", "video_id", "abc"⟩] = .ok (some "abc", none) ∧
    youtubeConditionStage [⟨"=", "channel_id", "xyz"⟩] = .ok (none, some "xyz") ∧
    (youtubeConditionStage [⟨">", "video_id", "abc"⟩]).isOk = false := by
  refine ⟨c7_amended.1 _ "abc" "xyz" rfl (by decide) (by decide), ?_, ?_, ?_⟩
  · exact c7_amended.2.1 [⟨"=", "video_id", "abc"⟩] (by decide) (by decide)
  · exact c7_amended.2.2.1 [⟨"=", "channel_id", "xyz"⟩] (by decide) (by decide)
  · exact c7_amended.2.2.2 [⟨">", "video_id", "abc"⟩]
      ⟨⟨">", "video_id", "abc"⟩, by simp, by decide⟩

/-- C8 counterexample: an explicit one-column projection over an empty fetch
yields an empty frame with just that column, not the full declared
eight-column set. -/
theorem c8_counterexample :
    youtubeCommentsSelect ⟨[.ident ["comment"]], [], [], none⟩ [] =
      .ok ⟨["comment"], []⟩ ∧ ["comment"] ≠ youtubeColumns := by
  exact ⟨rfl, by decide⟩

/-- A star target anywhere in the target list forces the full declared
column list, whatever was accumulated before it. -/
theorem youtubeSelectedColumns_star :
    ∀ (ts : List YTarget) (acc sel : List String),
      YTarget.star ∈ ts → youtubeSelectedColumns ts acc = .ok sel →
      sel = youtubeColumns := by
  intro ts
  induction ts with
  | nil => intro acc sel h; cases h
  | cons t rest ih =>
    intro acc sel hmem hok
    cases t with
    | star =>
      simp [youtubeSelectedColumns] at hok
      exact hok.symm
    | ident ps =>
      have hrest : YTarget.star ∈ rest := by
        rcases List.mem_cons.mp hmem with h | h
        · cases h
        · exact h
      exact ih _ sel hrest hok
    | other d => simp [youtubeSelectedColumns] at hok

/-- The selected-columns loop never shrinks below the accumulator unless a
star replaced everything with the declared list. -/
theorem youtubeSelectedColumns_length :
    ∀ (ts : List YTarget) (acc sel : List String),
      youtubeSelectedColumns ts acc = .ok sel →
      sel = youtubeColumns ∨ acc.length ≤ sel.length := by
  intro ts
  induction ts with
  | nil =>
    intro acc sel hok
    simp [youtubeSelectedColumns] at hok
    right
    rw [hok]
  | cons t rest ih =>
    intro acc sel hok
    cases t with
    | star =>
      simp [youtubeSelectedColumns] at hok
      left
      exact hok.symm
    | ident ps =>
      rcases ih (acc ++ [ps.getLastD ""]) sel hok with h | h
      · left; exact h
      · right
        simp [List.length_append] at h
        omega
    | other d => simp [youtubeSelectedColumns] at hok

/-- C8 amended: over an empty fetch the select returns an empty frame whose
columns are exactly the SELECTED columns — the full declared set when (and
only in general when) a star target occurs — and the column set is
non-empty whenever the query has at least one target. -/
theorem c8_amended (q : YQuery) (sel : List String)
    (ids : Option String × Option String)
    (hord : q.order_by = [])
    (hcond : youtubeConditionStage q.conds = .ok ids)
    (hsel : youtubeSelectedColumns q.targets [] = .ok sel)
    (hlim : q.limit = none) :
    youtubeCommentsSelect q [] = .ok ⟨sel, []⟩ ∧
    (YTarget.star ∈ q.targets → sel = youtubeColumns) ∧
    (q.targets ≠ [] → sel ≠ []) := by
  refine ⟨?_, ?_, ?_⟩
  · simp [youtubeCommentsSelect, hord, youtubeOrderBy, hcond, hsel, hlim]
  · intro hstar
    exact youtubeSelectedColumns_star q.targets [] sel hstar hsel
  · intro hne
    cases hts : q.targets with
    | nil => exact absurd hts hne
    | cons t rest =>
      rw [hts] at hsel
      cases t with
      | star =>
        simp [youtubeSelectedColumns] at hsel
        rw [← hsel]
        decide
      | ident ps =>
        have hstep : youtubeSelectedColumns (YTarget.ident ps :: rest) [] =
            youtubeSelectedColumns rest [ps.getLastD ""] := rfl
        rw [hstep] at hsel
        rcases youtubeSelectedColumns_length rest [ps.getLastD ""] sel hsel with h | h
        · rw [h]; decide
        · intro hnil
          rw [hnil] at h
          simp at h
      | other d => simp [youtubeSelectedColumns] at hsel

/-- C8 witness: the wildcard query over an empty fetch carries the full
declared column set, which is non-empty. -/
theorem c8_amended_witness :
    youtubeCommentsSelect ⟨[.star], [], [], none⟩ [] = .ok ⟨youtubeColumns, []⟩ ∧
    (YTarget.star ∈ [YTarget.star] → youtubeColumns = youtubeColumns) ∧
    ([YTarget.star] ≠ ([] : List YTarget) → youtubeColumns ≠ []) :=
  c8_amended ⟨[.star], [], [], none⟩ youtubeColumns (none, none) rfl rfl rfl rfl

/-- The three-column frame the cryptopanic evaluation uses. -/
def c4Fetched : DataFrame :=
  ⟨["title", "url", "kind"], [[.str "a", .str "b", .str "news"]]⟩

/-- C4: evaluated at an explicit one-column projection, the cryptopanic
select computes the projected frame but returns the UNPROJECTED fetched
frame (the filter_columns result is discarded at line 54), contradicting
the docstring of filter_columns; and the youtube drop-based projection
returns explicit projections in canonical order, not requested order:
requesting comment then video_id yields video_id then comment. -/
theorem c4_projection_not_applied :
    newsSelect ⟨[.ident "title"], [], none⟩ "tok" c4Fetched ["title", "url", "kind"] =
      .ok ([("lookback", "1"), ("api_token", "tok")], [], c4Fetched) ∧
    filter_columns c4Fetched [.ident "title"] ["title", "url", "kind"] =
      .ok ⟨["title"], [[.str "a"]]⟩ ∧
    (⟨["title"], [[.str "a"]]⟩ : DataFrame) ≠ c4Fetched ∧
    youtubeCommentsSelect ⟨[.ident ["comment"], .ident ["video_id"]], [], [], none⟩
        [[.str "ch", .str "vid", .str "u", .str "d", .str "c", .null, .null, .null]] =
      .ok ⟨["video_id", "comment"], [[.str "vid", .str "c"]]⟩ ∧
    ["video_id", "comment"] ≠ ["comment", "video_id"] := by
  refine ⟨?_, rfl, by decide, rfl, by decide⟩
  simp [newsSelect, newsConditionLoop, filter_columns, cpSelectedColumns,
    c4Fetched, cellAt, dictSet]
  decide

/-- C6 counterexample: an equality condition on a column with no pushable
form (foo) leaves the loop with no error and no parameter — the condition
is silently dropped rather than raising a hard failure; likewise the Milvus
translation silently returns None for a non-metadata condition. -/
theorem c6_counterexample :
    newsConditionLoop [⟨"=", "foo", "x"⟩] 0 [] = ([], [⟨"=", "foo", "x"⟩]) ∧
    translate_metadata_conditions (some [⟨"price", .LESS_THAN, .int 1000⟩]) =
      .ok none := by
  constructor
  · simp [newsConditionLoop, cpPushable, cpPushableCols]
  · rfl

/-- C6 amended: the Milvus operator table covers all ten declared operators
so no unsupported-operator failure can arise from it, but conditions ARE
silently dropped rather than rejected: the Milvus translation ignores any
condition whose column lacks the metadata prefix, and the cryptopanic loop
skips any condition that is not an equality on one of its five parameter
columns, leaving it unpushed, unapplied and unreported — so translation can
yield a strictly looser filter. -/
theorem c6_amended (c : FilterCondition)
    (hc : pyStartsWith c.column metadataField = false)
    (d : CPCond) (hd : cpPushable d = false) :
    translate_metadata_conditions (some [c]) = .ok none ∧
    newsConditionLoop [d] 0 [] = ([], [d]) := by
  constructor
  · simp [translate_metadata_conditions, hc]
  · simp [newsConditionLoop, hd]

/-- C6 witness: a greater-than condition on the filters column is skipped by
the cryptopanic loop, and a non-metadata price condition is dropped by the
Milvus translation. -/
theorem c6_amended_witness :
    translate_metadata_conditions (some [⟨"price", .GREATER_THAN, .int 300⟩]) =
      .ok none ∧
    newsConditionLoop [⟨">", "filters", "x"⟩] 0 [] = ([], [⟨">", "filters", "x"⟩]) :=
  c6_amended ⟨"price", .GREATER_THAN, .int 300⟩ (by decide)
    ⟨">", "filters", "x"⟩ (by decide)

/-- Looking a key up after a dict assignment: the assigned key reads the new
value, any other key is unaffected. -/
theorem dictGet_dictSet (k v k2 : String) :
    ∀ d : CPDict, dictGet (dictSet d k v) k2 =
      if k = k2 then some v else dictGet d k2 := by
  intro d
  induction d with
  | nil => simp [dictSet, dictGet]
  | cons p rest ih =>
    obtain ⟨k0, v0⟩ := p
    by_cases h : k0 = k
    · subst h
      by_cases h2 : k0 = k2 <;> simp [dictSet, dictGet, h2]
    · by_cases h2 : k0 = k2
      · subst h2
        simp [dictSet, dictGet, h, Ne.symm h]
      · simp [dictSet, dictGet, h, h2, ih]

/-- A pushable condition has its column among the five parameter columns. -/
theorem cpPushable_col_mem (c : CPCond) (h : cpPushable c = true) :
    c.col ∈ cpPushableCols := by
  have := (Bool.and_eq_true _ _).mp h
  simpa using this.2

/-- Distinct pushable columns have distinct api_condition keys (the only
renaming, currency to currencies, stays injective). -/
theorem cpApiKey_injOn (a b : String) (ha : a ∈ cpPushableCols)
    (hb : b ∈ cpPushableCols) (hab : a ≠ b) : cpApiKey a ≠ cpApiKey b := by
  fin_cases ha <;> fin_cases hb <;> simp_all [cpApiKey]

/-- No pushable column maps to the lookback or api_token keys. -/
theorem cpApiKey_not_reserved (a : String) (ha : a ∈ cpPushableCols) :
    cpApiKey a ≠ "lookback" ∧ cpApiKey a ≠ "api_token" := by
  fin_cases ha <;> exact ⟨by decide, by decide⟩

/-- Removing an element that heads the suffix of an append, when absent
from the prefix, removes exactly that occurrence. -/
theorem pyRemove_append_of_not_mem (x : CPCond) :
    ∀ (pre rest : List CPCond), x ∉ pre →
      pyRemove x (pre ++ x :: rest) = pre ++ rest := by
  intro pre
  induction pre with
  | nil => intro rest _; simp [pyRemove]
  | cons y t ih =>
    intro rest h
    have hy : ¬ y = x := fun he => h (he ▸ List.mem_cons_self y t)
    have hih := ih rest (fun hm => h (List.mem_cons_of_mem y hm))
    simp [pyRemove, hy, hih]

/-- While the iterator position stays inside a prefix of non-pushable
conditions, the loop only advances the position. -/
theorem newsLoop_skip_nonpush (pre suffix : List CPCond) (params : CPDict)
    (hpre : ∀ c ∈ pre, cpPushable c = false) :
    ∀ (n i : Nat), pre.length - i = n → i ≤ pre.length →
      newsConditionLoop (pre ++ suffix) i params =
        newsConditionLoop (pre ++ suffix) pre.length params := by
  intro n
  induction n with
  | zero =>
    intro i h1 h2
    have hi : i = pre.length := by omega
    rw [hi]
  | succ m ih =>
    intro i h1 h2
    have hi : i < pre.length := by omega
    have hilen : i < (pre ++ suffix).length := by
      rw [List.length_append]; omega
    have hget : (pre ++ suffix).get ⟨i, hilen⟩ = pre.get ⟨i, hi⟩ :=
      List.get_append i hi
    have hfalse : cpPushable (pre.get ⟨i, hi⟩) = false :=
      hpre _ (pre.get_mem i hi)
    rw [newsConditionLoop, dif_pos hilen]
    simp only [hget, hfalse, Bool.false_eq_true, if_false]
    exact ih (i + 1) (by omega) (by omega)

/-- A non-pushable prefix followed by two pushable conditions: the loop
skips the prefix, pushes the first condition, and terminates — the second
pushable condition is never examined, because removing the first slid it
into the already-visited position. -/
theorem newsLoop_consecutive (pre : List CPCond) (c1 c2 : CPCond)
    (hpre : ∀ c ∈ pre, cpPushable c = false)
    (h1 : cpPushable c1 = true) :
    newsConditionLoop (pre ++ [c1, c2]) 0 [] =
      ([(cpApiKey c1.col, c1.val)], pre ++ [c2]) := by
  rw [newsLoop_skip_nonpush pre [c1, c2] [] hpre pre.length 0 (by omega)
    (by omega)]
  have hlen : pre.length < (pre ++ [c1, c2]).length := by
    rw [List.length_append]; simp
  have hget : (pre ++ [c1, c2]).get ⟨pre.length, hlen⟩ = c1 := by
    rw [List.get_append_right] <;> simp
  have hc1mem : c1 ∉ pre := by
    intro hm
    rw [hpre c1 hm] at h1
    cases h1
  rw [newsConditionLoop, dif_pos hlen]
  simp only [hget, h1, if_true]
  rw [pyRemove_append_of_not_mem c1 pre [c2] hc1mem]
  rw [newsConditionLoop, dif_neg (by rw [List.length_append]; simp)]
  rfl

/-- C10: for every extraction consisting of pushable conditions preceded
only by non-pushable ones and ending in two consecutive pushable equality
conditions on distinct columns, the second of the pair is skipped by the
remove-while-iterating loop: its parameter is absent from the pushed API
parameters, it stays in the leftover list that select never applies, the
returned frame is the unfiltered fetched frame, and no error is raised. -/
theorem c10_second_condition_skipped (pre : List CPCond) (c1 c2 : CPCond)
    (hpre : ∀ c ∈ pre, cpPushable c = false)
    (h1 : cpPushable c1 = true) (h2 : cpPushable c2 = true)
    (hcols : c1.col ≠ c2.col)
    (tok : String) (ts : List CPTarget) (fetched pf : DataFrame)
    (declared : List String) (lim : Option Int)
    (hfc : filter_columns fetched ts declared = .ok pf) :
    ∃ params : CPDict,
      newsSelect ⟨ts, pre ++ [c1, c2], lim⟩ tok fetched declared =
        .ok (params, pre ++ [c2], fetched) ∧
      dictGet params (cpApiKey c2.col) = none ∧
      dictGet params (cpApiKey c1.col) = some c1.val ∧
      c2 ∈ pre ++ [c2] := by
  have hk1 := cpApiKey_not_reserved c1.col (cpPushable_col_mem c1 h1)
  have hk2 := cpApiKey_not_reserved c2.col (cpPushable_col_mem c2 h2)
  have hkk : cpApiKey c1.col ≠ cpApiKey c2.col :=
    cpApiKey_injOn c1.col c2.col (cpPushable_col_mem c1 h1)
      (cpPushable_col_mem c2 h2) hcols
  refine ⟨dictSet (dictSet [(cpApiKey c1.col, c1.val)] "lookback"
      (toString (match lim with
        | none => Int.fdiv 200 200
        | some l => Int.fdiv l 200)))
      "api_token" tok, ?_, ?_, ?_, ?_⟩
  · simp only [newsSelect, newsLoop_consecutive pre c1 c2 hpre h1, hfc]
  · rw [dictGet_dictSet, if_neg (Ne.symm hk2.2), dictGet_dictSet,
      if_neg (Ne.symm hk2.1)]
    simp [dictGet, hkk]
  · rw [dictGet_dictSet, if_neg (Ne.symm hk1.2), dictGet_dictSet,
      if_neg (Ne.symm hk1.1)]
    simp [dictGet]
  · exact List.mem_append_right pre (List.mem_cons_self c2 [])

/-- C10 witness: a filters condition immediately followed by a currency
condition pushes only filters; the currency condition stays leftover and
unapplied. -/
theorem c10_witness :
    ∃ params : CPDict,
      newsSelect ⟨[.star], [⟨"=", "filters", "rising"⟩, ⟨"=", "currency", "BTC"⟩],
          none⟩ "tok" (⟨[], []⟩ : DataFrame) [] =
        .ok (params, [⟨"=", "currency", "BTC"⟩], (⟨[], []⟩ : DataFrame)) ∧
      dictGet params (cpApiKey "currency") = none ∧
      dictGet params (cpApiKey "filters") = some "rising" ∧
      (⟨"=", "currency", "BTC"⟩ : CPCond) ∈
        ([] : List CPCond) ++ [(⟨"=", "currency", "BTC"⟩ : CPCond)] :=
  c10_second_condition_skipped [] ⟨"=", "filters", "rising"⟩
    ⟨"=", "currency", "BTC"⟩ (by intro c hc; cases hc) (by decide) (by decide)
    (by decide) "tok" [.star] ⟨[], []⟩ ⟨[], []⟩ [] none rfl

end MindsDB
